import Mathlib

/-!
Verification of the `NostrClient` connection layer of nostr-battle-room
(src/core/NostrClient.ts).

The TypeScript class is shallowly embedded: the mutable instance fields
become the `ClientState` structure, the external `nostr-tools` crypto
primitives become a `CryptoEnv` record of pure parameters, the pluggable
storage backend becomes a `StorageBackend` whose operations may report a
thrown exception, and the asynchronous callback machinery of `fetch` is
modelled as a fold of a step function over a trace of callback occurrences.
-/

namespace NostrBattle

/-- Result of an external call that may throw (a JS exception). -/
inductive SOut (α : Type) where
  | ok : α → SOut α
  | thrown : SOut α
deriving DecidableEq, Repr

/-- A secret key (`Uint8Array` in the source). -/
abbrev SecretKey := List Nat

/-- Result of `nip19.decode`: an `nsec`-typed payload or some other type. -/
inductive Decoded where
  | nsec (data : SecretKey)
  | other
deriving DecidableEq, Repr

/-- The external `nostr-tools` primitives used by `NostrClient`, as pure
parameters: `generateSecretKey` (the fresh key the generator would return),
`getPublicKey`, `nip19.decode` (which may throw), `nip19.nsecEncode`,
the clock `Date.now()` in milliseconds, and the id/signature parts of
`finalizeEvent`. -/
structure CryptoEnv where
  generateSecretKey : SecretKey
  getPublicKey : SecretKey → String
  decode : String → SOut Decoded
  nsecEncode : SecretKey → String
  nowMs : Nat
  eventId : Nat → List (List String) → String → String
  sign : Nat → List (List String) → String → SecretKey → String

/-- A pluggable storage backend (`getItem`/`setItem`), either of which may
throw (storage unavailable, quota exceeded, ...). -/
structure StorageBackend where
  getItem : String → SOut (Option String)
  setItem : String → String → SOut Unit

/-- A storage access performed during `connect`. -/
inductive StorageOp where
  | get (key : String)
  | set (key : String) (value : String)
deriving DecidableEq, Repr

/-- Retry policy for publish operations (`RetryOptions` in src/retry.ts). -/
structure RetryOptions where
  maxAttempts : Nat
  initialDelay : Nat
  maxDelay : Nat
deriving DecidableEq, Repr

/-- Wire event (`NostrEvent` in the source). -/
structure NostrEvent where
  id : String
  pubkey : String
  created_at : Nat
  kind : Nat
  tags : List (List String)
  content : String
  sig : String
deriving DecidableEq, Repr

/-- The part of an event the caller of `publish` supplies
(`Omit<NostrEvent, 'id' | 'pubkey' | 'created_at' | 'sig'>`). -/
structure EventTemplate where
  kind : Nat
  tags : List (List String)
  content : String
deriving DecidableEq, Repr

/-- A `nostr-tools` `Filter`, treated as opaque by the embedded code. -/
structure NFilter where
  raw : Nat
deriving DecidableEq, Repr

/-- The mutable instance fields of `NostrClient`.  `pool = true` models
`this.pool !== null`; `storageKeyNs` is the `storageKeyPrefix` field. -/
structure ClientState where
  pool : Bool
  secretKey : Option SecretKey
  publicKey : String
  isConnected : Bool
  relays : List String
  storageKeyNs : String
  publishRetry : RetryOptions
deriving DecidableEq, Repr

/-- The error message thrown by `publish`/`fetch` when not connected. -/
def notConnectedMsg : String := "NostrClient not connected. Call connect() first."

namespace NostrClient

/-- The constructor: fields as initialized by `new NostrClient(options)`
(pool `null`, no secret key, empty public key, not connected). -/
def init (relays : List String) (ns : String) (retr : RetryOptions) : ClientState :=
  { pool := false, secretKey := none, publicKey := "", isConnected := false,
    relays := relays, storageKeyNs := ns, publishRetry := retr }

/-- `safeStorageSet`: calls `setItem` and swallows any exception; returns the
storage access it performed. -/
def safeStorageSet (sb : StorageBackend) (key value : String) : List StorageOp :=
  match sb.setItem key value with
  | .ok _ => [StorageOp.set key value]
  | .thrown => [StorageOp.set key value]

/-- `connect()`: no-op if already connected; otherwise loads the stored nsec
key (reusing it when it parses as an `nsec`), generating and persisting a
fresh key when it is absent or unparseable, and generating an ephemeral key
when `getItem` throws; then derives the public key, creates the pool and sets
the connected flag.  Returns the new state together with the storage accesses
performed. -/
def connect (env : CryptoEnv) (sb : StorageBackend) (c : ClientState) :
    ClientState × List StorageOp :=
  if c.isConnected then (c, [])
  else
    let nsecKey := c.storageKeyNs ++ "-nsec"
    let skOps : SecretKey × List StorageOp :=
      match sb.getItem nsecKey with
      | .thrown =>
        -- outer catch: storage not available, generate ephemeral key
        (env.generateSecretKey, [StorageOp.get nsecKey])
      | .ok storedNsec =>
        if (storedNsec.getD "").startsWith "nsec1" then
          match env.decode (storedNsec.getD "") with
          | .ok (.nsec d) => (d, [StorageOp.get nsecKey])
          | _ =>
            -- decode threw or the type was not nsec: inner catch
            (env.generateSecretKey,
              StorageOp.get nsecKey ::
                safeStorageSet sb nsecKey (env.nsecEncode env.generateSecretKey))
        else
          (env.generateSecretKey,
            StorageOp.get nsecKey ::
              safeStorageSet sb nsecKey (env.nsecEncode env.generateSecretKey))
    ({ c with secretKey := some skOps.1,
              publicKey := env.getPublicKey skOps.1,
              pool := true,
              isConnected := true }, skOps.2)

/-- `disconnect()`: closes and clears the pool and clears the connected flag;
the key material and public key are left in place. -/
def disconnect (c : ClientState) : ClientState :=
  { c with pool := false, isConnected := false }

end NostrClient

/-- The delay before retry number `i + 1` (exponential backoff capped at
`maxDelay`, starting from `initialDelay`). -/
def backoffDelay (o : RetryOptions) (i : Nat) : Nat :=
  min (o.initialDelay * 2 ^ i) o.maxDelay

/-- Outcome of `withRetry`: which attempt (1-based count of attempts used)
succeeded and the delays waited between attempts, or failure with every
attempt used. -/
inductive RetryResult where
  | ok (attemptsUsed : Nat) (delays : List Nat)
  | failed (attemptsUsed : Nat) (delays : List Nat)
deriving DecidableEq, Repr

/-- Modelled from the spec: `withRetry` lives in src/retry.ts, which is not
among the provided sources (only its import and call site are).  Per the
spec it runs the attempt, succeeds as soon as one attempt succeeds, and on
failure retries after a bounded exponential backoff delay, up to the
configured maximum number of attempts, then surfaces the failure.
`f i` is whether attempt `i` (0-based) succeeds. -/
def withRetry (f : Nat → Bool) (o : RetryOptions) : RetryResult :=
  match (List.range o.maxAttempts).find? f with
  | some i => .ok (i + 1) ((List.range i).map (backoffDelay o))
  | none => .failed o.maxAttempts ((List.range (o.maxAttempts - 1)).map (backoffDelay o))

/-- Outcome of a `publish` call. -/
inductive PublishOutcome where
  | notConnected (msg : String)
  | published (attemptsUsed : Nat) (delays : List Nat)
  | publishFailed (attemptsUsed : Nat) (delays : List Nat)
deriving DecidableEq, Repr

/-- What a `publish` call did: its outcome, the signed event it produced
(`none` when it threw before signing), and how many relay-send attempts
it made. -/
structure PublishRes where
  outcome : PublishOutcome
  signed : Option NostrEvent
  relayAttempts : Nat
deriving DecidableEq, Repr

namespace NostrClient

/-- `finalizeEvent` applied to the template built by `publish`: kind, tags
and content from the template, `created_at = Math.floor(Date.now() / 1000)`,
id/pubkey/sig from the crypto layer. -/
def finalizeEvt (env : CryptoEnv) (t : EventTemplate) (sk : SecretKey) : NostrEvent :=
  { id := env.eventId t.kind t.tags t.content,
    pubkey := env.getPublicKey sk,
    created_at := env.nowMs / 1000,
    kind := t.kind,
    tags := t.tags,
    content := t.content,
    sig := env.sign t.kind t.tags t.content sk }

/-- `publish(eventTemplate)`: throws `NotConnected` when the pool or secret
key is missing (no signing, no send); otherwise signs the event and runs
`withRetry` over `Promise.any(pool.publish(relays, event))` — an attempt
succeeds iff any one relay accepts.  `accept i` lists, per configured relay,
whether that relay accepts the event on attempt `i`. -/
def publish (env : CryptoEnv) (c : ClientState) (tmpl : EventTemplate)
    (accept : Nat → List Bool) : PublishRes :=
  match c.pool, c.secretKey with
  | true, some sk =>
    let ev := finalizeEvt env tmpl sk
    match withRetry (fun i => (accept i).any id) c.publishRetry with
    | .ok n ds => { outcome := .published n ds, signed := some ev, relayAttempts := n }
    | .failed n ds => { outcome := .publishFailed n ds, signed := some ev, relayAttempts := n }
  | _, _ => { outcome := .notConnected notConnectedMsg, signed := none, relayAttempts := 0 }

end NostrClient

/-- Result of a `subscribe` call: a non-fatal warning with a no-op
unsubscribe, or a live subscription (with the filter it was opened
against and its handle). -/
inductive SubscribeRes where
  | warnNoop (warning : String)
  | active (filterUsed : NFilter) (subId : Nat)
deriving DecidableEq, Repr

/-- The world of open subscription handles. -/
abbrev SubWorld := List Nat

/-- The effect of calling the unsubscribe function returned by `subscribe`:
the no-op closure does nothing; the live one closes its subscription. -/
def unsubEffect : SubscribeRes → SubWorld → SubWorld
  | .warnNoop _, w => w
  | .active _ sid, w => w.filter (fun x => x ≠ sid)

namespace NostrClient

/-- `subscribe(filters, onEvent)`: warns and returns a no-op unsubscribe when
the pool is missing or no filters were given; otherwise opens the live
subscription against `filters[0]` only (`subscribeMany` receives a single
filter); a throwing `subscribeMany` is caught and also yields a no-op
unsubscribe.  `subMany` is the handle `pool.subscribeMany` returns (or its
exception). -/
def subscribe (c : ClientState) (filters : List NFilter) (subMany : SOut Nat) :
    SubscribeRes :=
  if c.pool = false then .warnNoop notConnectedMsg
  else
    match filters with
    | [] => .warnNoop "[NostrClient] No filters provided"
    | f :: _ =>
      match subMany with
      | .ok sid => .active f sid
      | .thrown => .warnNoop "Failed to subscribe"

end NostrClient

/-- `needle` occurs as a contiguous run inside `hay`. -/
def charRunWithin (needle : List Char) : List Char → Bool
  | [] => needle.isEmpty
  | c :: rest => needle.isPrefixOf (c :: rest) || charRunWithin needle rest

/-- The per-reason test of `fetch`'s `onclose` handler:
`r.toLowerCase().includes('eose')` (each character lower-cased, then a
substring test). -/
def eoseReason (r : String) : Bool :=
  charRunWithin "eose".toList (r.toList.map Char.toLower)

/-- `reasons.some (r => ... includes('eose'))`: at least one close reason
contains the end-of-stored-events marker. -/
def hasEose (reasons : List String) : Bool :=
  reasons.any eoseReason

/-- A callback occurrence inside one `fetch` call: an `onevent` delivery,
the `onclose` delivery with its close reasons, or the timeout timer firing. -/
inductive FetchOcc where
  | event (e : NostrEvent)
  | close (reasons : List String)
  | timeoutFire
deriving DecidableEq, Repr

/-- How the `fetch` promise settled. -/
inductive FetchResult where
  | resolved (events : List NostrEvent)
  | rejected (msg : String)
deriving DecidableEq, Repr

/-- The state of one in-flight `fetch` call: the accumulated events and the
settled result (`none` while pending; the `resolved` guard flag of the source
is `result.isSome`). -/
structure FetchSt where
  events : List NostrEvent
  result : Option FetchResult
deriving DecidableEq, Repr

/-- `finish`: latched — a second call is a no-op; the first call closes the
subscription and settles the promise. -/
def finish (s : FetchSt) (r : FetchResult) : FetchSt :=
  if s.result.isSome then s else { s with result := some r }

/-- One callback occurrence applied to the `fetch` state.  `onevent` appends
to the accumulator (after settlement `finish` has closed the subscription,
so no further `onevent` fires — modelled as no effect); `onclose` settles
with the accumulated events when some reason contains 'eose' and with a
no-relay-response error otherwise; the timer settles with the timeout
error. -/
def fetchStep (s : FetchSt) (o : FetchOcc) : FetchSt :=
  match o with
  | .event e => if s.result.isSome then s else { s with events := s.events ++ [e] }
  | .close reasons =>
    if hasEose reasons then finish s (.resolved s.events)
    else finish s (.rejected ("No relay response: " ++ String.intercalate ", " reasons))
  | .timeoutFire => finish s (.rejected "No relay response: timeout")

/-- The `fetch` promise machinery run over a trace of callback occurrences,
starting from the empty accumulator and a pending result. -/
def fetchRun (occs : List FetchOcc) : FetchSt :=
  occs.foldl fetchStep { events := [], result := none }

/-- The default `timeoutMs` of `fetch`. -/
def fetchDefTimeout : Nat := 5000

namespace NostrClient

/-- `fetch(filter, timeoutMs)`: throws `NotConnected` when the pool is
missing; otherwise the promise settles according to the trace of callback
occurrences (`none` meaning the call is still pending after the trace). -/
def fetch (c : ClientState) (occs : List FetchOcc) : Except String (Option FetchResult) :=
  if c.pool = false then .error notConnectedMsg
  else .ok (fetchRun occs).result

end NostrClient

/-- A step that also records the trace time at which the promise first
settled. -/
def timedStep (p : FetchSt × Option Nat) (tq : Nat × FetchOcc) : FetchSt × Option Nat :=
  let s := fetchStep p.1 tq.2
  (s, if p.2.isNone && s.result.isSome then some tq.1 else p.2)

/-- The subscription occurrences merged with the timeout timer, which
`setTimeout(..., timeoutMs)` fires at time `timeoutMs`: occurrences strictly
before it run first, then the timer, then the rest. -/
def timedMerge (timeoutMs : Nat) (subOccs : List (Nat × FetchOcc)) : List (Nat × FetchOcc) :=
  subOccs.filter (fun q => q.1 < timeoutMs) ++ [(timeoutMs, FetchOcc.timeoutFire)] ++
    subOccs.filter (fun q => timeoutMs ≤ q.1)

/-- One `fetch` call with its timeout timer, run over time-stamped
subscription occurrences; returns the final state and the time at which the
promise settled. -/
def fetchTimed (timeoutMs : Nat) (subOccs : List (Nat × FetchOcc)) :
    FetchSt × Option Nat :=
  (timedMerge timeoutMs subOccs).foldl timedStep ({ events := [], result := none }, none)

/-! Concrete sample objects used to instantiate the theorems below. -/

/-- A sample crypto environment with a fixed fresh key and a constant
non-empty public key. -/
def sampleEnv : CryptoEnv :=
  { generateSecretKey := [1, 2, 3],
    getPublicKey := fun _ => "pk",
    decode := fun s => if s = "nsec1good" then .ok (.nsec [9]) else .thrown,
    nsecEncode := fun _ => "nsec1enc",
    nowMs := 1700000000000,
    eventId := fun _ _ _ => "id",
    sign := fun _ _ _ _ => "sig" }

/-- A sample storage backend with nothing stored. -/
def sampleStorage : StorageBackend :=
  { getItem := fun _ => .ok none, setItem := fun _ _ => .ok () }

/-- The default publish retry policy of the source constructor. -/
def sampleRetry : RetryOptions := { maxAttempts := 3, initialDelay := 1000, maxDelay := 5000 }

/-- A sample connected client. -/
def sampleConnected : ClientState :=
  { pool := true, secretKey := some [1, 2, 3], publicKey := "pk", isConnected := true,
    relays := ["wss://relay.a"], storageKeyNs := "nostr-battle", publishRetry := sampleRetry }

/-- A sample wire event. -/
def sampleEvent : NostrEvent :=
  { id := "e1", pubkey := "p1", created_at := 10, kind := 25000, tags := [["d", "room"]],
    content := "x", sig := "s1" }

/-!  Theorems settling the claims. -/

/-- C7: `connect()` is idempotent — on an already-connected client it returns
the state unchanged (secret key, public key, pool and connected flag intact)
and performs no storage access. -/
theorem connect_idempotent (env : CryptoEnv) (sb : StorageBackend) (c : ClientState)
    (h : c.isConnected = true) :
    NostrClient.connect env sb c = (c, []) := by
  simp [NostrClient.connect, h]

/-- Witness for `connect_idempotent` at a concrete connected client. -/
theorem connect_idempotent_witness :
    NostrClient.connect sampleEnv sampleStorage sampleConnected = (sampleConnected, []) :=
  connect_idempotent sampleEnv sampleStorage sampleConnected rfl

/-- C6: `publish` called before `connect()` has ever run (pool and secret key
both unset, as the constructor leaves them) rejects with the not-connected
error, whose message starts with 'NostrClient not connected', and performs
no signing and no relay send. -/
theorem publish_before_connect (env : CryptoEnv) (relays : List String) (ns : String)
    (retr : RetryOptions) (tmpl : EventTemplate) (accept : Nat → List Bool) :
    NostrClient.publish env (NostrClient.init relays ns retr) tmpl accept =
      { outcome := .notConnected notConnectedMsg, signed := none, relayAttempts := 0 } ∧
    "NostrClient not connected".toList.isPrefixOf notConnectedMsg.toList = true := by
  exact ⟨rfl, by decide⟩

/-- C9: after `disconnect()` the pool is cleared, so every subsequent
`publish` or `fetch` rejects with the not-connected error, and a new
`connect()` restores the pool. -/
theorem reject_after_disconnect (env : CryptoEnv) (sb : StorageBackend) (c : ClientState)
    (tmpl : EventTemplate) (accept : Nat → List Bool) (occs : List FetchOcc) :
    (NostrClient.publish env (NostrClient.disconnect c) tmpl accept).outcome =
        .notConnected notConnectedMsg ∧
    NostrClient.fetch (NostrClient.disconnect c) occs = .error notConnectedMsg ∧
    (NostrClient.connect env sb (NostrClient.disconnect c)).1.pool = true := by
  refine ⟨?_, ?_, ?_⟩
  · cases hsk : c.secretKey <;>
      simp [NostrClient.publish, NostrClient.disconnect, hsk]
  · simp [NostrClient.fetch, NostrClient.disconnect]
  · simp [NostrClient.connect, NostrClient.disconnect]

/-- C3: `connect()` completes for every storage backend, leaving the client
connected with a signing key and the public key derived from it; a stored
parseable nsec key is reused, an absent or non-nsec-shaped stored value or an
unparseable nsec-shaped one yields a freshly generated key, and a throwing
`getItem` yields a freshly generated ephemeral key with no attempt to persist
it — a storage error never aborts connection. -/
theorem connect_storage_robust (env : CryptoEnv) (sb : StorageBackend) (c : ClientState)
    (hc : c.isConnected = false) :
    (NostrClient.connect env sb c).1.isConnected = true ∧
    (NostrClient.connect env sb c).1.pool = true ∧
    (∃ k, (NostrClient.connect env sb c).1.secretKey = some k ∧
      (NostrClient.connect env sb c).1.publicKey = env.getPublicKey k) ∧
    (∀ s d, sb.getItem (c.storageKeyNs ++ "-nsec") = .ok (some s) →
      s.startsWith "nsec1" = true → env.decode s = .ok (.nsec d) →
      (NostrClient.connect env sb c).1.secretKey = some d) ∧
    (∀ os, sb.getItem (c.storageKeyNs ++ "-nsec") = .ok os →
      (os.getD "").startsWith "nsec1" = false →
      (NostrClient.connect env sb c).1.secretKey = some env.generateSecretKey) ∧
    (∀ s, sb.getItem (c.storageKeyNs ++ "-nsec") = .ok (some s) →
      s.startsWith "nsec1" = true → (∀ d, env.decode s ≠ .ok (.nsec d)) →
      (NostrClient.connect env sb c).1.secretKey = some env.generateSecretKey) ∧
    (sb.getItem (c.storageKeyNs ++ "-nsec") = .thrown →
      (NostrClient.connect env sb c).1.secretKey = some env.generateSecretKey ∧
      (NostrClient.connect env sb c).2 = [StorageOp.get (c.storageKeyNs ++ "-nsec")]) := by
  refine ⟨by simp [NostrClient.connect, hc], by simp [NostrClient.connect, hc], ?_, ?_, ?_, ?_, ?_⟩
  · cases hg : sb.getItem (c.storageKeyNs ++ "-nsec") with
    | thrown => exact ⟨env.generateSecretKey, by simp [NostrClient.connect, hc, hg]⟩
    | ok storedNsec =>
      by_cases hsw : (storedNsec.getD "").startsWith "nsec1"
      · cases hdec : env.decode (storedNsec.getD "") with
        | thrown => exact ⟨env.generateSecretKey, by simp [NostrClient.connect, hc, hg, hsw, hdec]⟩
        | ok dd =>
          cases dd with
          | nsec d => exact ⟨d, by simp [NostrClient.connect, hc, hg, hsw, hdec]⟩
          | other => exact ⟨env.generateSecretKey, by simp [NostrClient.connect, hc, hg, hsw, hdec]⟩
      · exact ⟨env.generateSecretKey, by simp [NostrClient.connect, hc, hg, hsw]⟩
  · intro s d hg hsw hdec
    simp [NostrClient.connect, hc, hg, hsw, hdec]
  · intro os hg hsw
    cases hdec : env.decode (os.getD "") <;>
      simp [NostrClient.connect, hc, hg, hsw]
  · intro s hg hsw hne
    cases hdec : env.decode s with
    | thrown => simp [NostrClient.connect, hc, hg, hsw, hdec]
    | ok dd =>
      cases dd with
      | nsec d => exact absurd hdec (hne d)
      | other => simp [NostrClient.connect, hc, hg, hsw, hdec]
  · intro hg
    exact ⟨by simp [NostrClient.connect, hc, hg], by simp [NostrClient.connect, hc, hg]⟩

/-- Witness for `connect_storage_robust` on a fresh client with empty
storage. -/
theorem connect_storage_robust_witness :
    (NostrClient.connect sampleEnv sampleStorage
        (NostrClient.init ["wss://relay.a"] "nostr-battle" sampleRetry)).1.isConnected = true ∧
    (NostrClient.connect sampleEnv sampleStorage
        (NostrClient.init ["wss://relay.a"] "nostr-battle" sampleRetry)).1.pool = true ∧
    (∃ k, (NostrClient.connect sampleEnv sampleStorage
        (NostrClient.init ["wss://relay.a"] "nostr-battle" sampleRetry)).1.secretKey = some k ∧
      (NostrClient.connect sampleEnv sampleStorage
        (NostrClient.init ["wss://relay.a"] "nostr-battle" sampleRetry)).1.publicKey =
          sampleEnv.getPublicKey k) ∧
    (∀ s d, sampleStorage.getItem ("nostr-battle" ++ "-nsec") = .ok (some s) →
      s.startsWith "nsec1" = true → sampleEnv.decode s = .ok (.nsec d) →
      (NostrClient.connect sampleEnv sampleStorage
        (NostrClient.init ["wss://relay.a"] "nostr-battle" sampleRetry)).1.secretKey = some d) ∧
    (∀ os, sampleStorage.getItem ("nostr-battle" ++ "-nsec") = .ok os →
      (os.getD "").startsWith "nsec1" = false →
      (NostrClient.connect sampleEnv sampleStorage
        (NostrClient.init ["wss://relay.a"] "nostr-battle" sampleRetry)).1.secretKey =
          some sampleEnv.generateSecretKey) ∧
    (∀ s, sampleStorage.getItem ("nostr-battle" ++ "-nsec") = .ok (some s) →
      s.startsWith "nsec1" = true → (∀ d, sampleEnv.decode s ≠ .ok (.nsec d)) →
      (NostrClient.connect sampleEnv sampleStorage
        (NostrClient.init ["wss://relay.a"] "nostr-battle" sampleRetry)).1.secretKey =
          some sampleEnv.generateSecretKey) ∧
    (sampleStorage.getItem ("nostr-battle" ++ "-nsec") = .thrown →
      (NostrClient.connect sampleEnv sampleStorage
        (NostrClient.init ["wss://relay.a"] "nostr-battle" sampleRetry)).1.secretKey =
          some sampleEnv.generateSecretKey ∧
      (NostrClient.connect sampleEnv sampleStorage
        (NostrClient.init ["wss://relay.a"] "nostr-battle" sampleRetry)).2 =
          [StorageOp.get ("nostr-battle" ++ "-nsec")]) :=
  connect_storage_robust sampleEnv sampleStorage
    (NostrClient.init ["wss://relay.a"] "nostr-battle" sampleRetry) rfl

/-- C10: the `publicKey` accessor is the empty string on a freshly
constructed client; after a `connect()` on an unconnected client it is the
(non-empty, when key derivation never returns the empty string) public key
derived from the current secret key; and `disconnect()` leaves it
unchanged. -/
theorem publicKey_lifecycle (env : CryptoEnv) (sb : StorageBackend)
    (hpk : ∀ k, env.getPublicKey k ≠ "")
    (relays : List String) (ns : String) (retr : RetryOptions)
    (c : ClientState) (hc : c.isConnected = false) :
    (NostrClient.init relays ns retr).publicKey = "" ∧
    (∃ k, (NostrClient.connect env sb c).1.secretKey = some k ∧
      (NostrClient.connect env sb c).1.publicKey = env.getPublicKey k) ∧
    (NostrClient.connect env sb c).1.publicKey ≠ "" ∧
    (∀ d : ClientState, (NostrClient.disconnect d).publicKey = d.publicKey) := by
  have hk : (NostrClient.connect env sb c).1.publicKey =
      env.getPublicKey ((NostrClient.connect env sb c).1.secretKey.getD []) := by
    simp [NostrClient.connect, hc]
  refine ⟨rfl, ?_, ?_, fun d => rfl⟩
  · exact ⟨(NostrClient.connect env sb c).1.secretKey.getD [],
      by simp [NostrClient.connect, hc], hk⟩
  · rw [hk]; exact hpk _

/-- Witness for `publicKey_lifecycle` with a concrete environment whose key
derivation is constantly `"pk"`. -/
theorem publicKey_lifecycle_witness :
    (NostrClient.init ["wss://relay.a"] "nostr-battle" sampleRetry).publicKey = "" ∧
    (∃ k, (NostrClient.connect sampleEnv sampleStorage
        (NostrClient.init ["wss://relay.a"] "nostr-battle" sampleRetry)).1.secretKey = some k ∧
      (NostrClient.connect sampleEnv sampleStorage
        (NostrClient.init ["wss://relay.a"] "nostr-battle" sampleRetry)).1.publicKey =
          sampleEnv.getPublicKey k) ∧
    (NostrClient.connect sampleEnv sampleStorage
        (NostrClient.init ["wss://relay.a"] "nostr-battle" sampleRetry)).1.publicKey ≠ "" ∧
    (∀ d : ClientState, (NostrClient.disconnect d).publicKey = d.publicKey) :=
  publicKey_lifecycle sampleEnv sampleStorage (fun _ => by simp only [sampleEnv]; decide)
    ["wss://relay.a"] "nostr-battle" sampleRetry
    (NostrClient.init ["wss://relay.a"] "nostr-battle" sampleRetry) rfl

/-- A run of `onevent` deliveries on a pending fetch only accumulates. -/
theorem foldl_fetchStep_events (evs : List NostrEvent) (acc : List NostrEvent) :
    (evs.map FetchOcc.event).foldl fetchStep { events := acc, result := none } =
      { events := acc ++ evs, result := none } := by
  induction evs generalizing acc with
  | nil => simp
  | cons e t ih => simp [fetchStep, ih]

/-- C1: on a connected client, a fetch whose subscription delivers some
events and then closes resolves with exactly the accumulated event list iff
at least one close reason contains 'eose' case-insensitively as a substring,
and otherwise rejects with the no-relay-response error listing the reasons;
in particular a completion close with zero events resolves with the empty
list. -/
theorem fetch_eose_membership (c : ClientState) (hp : c.pool = true)
    (evs : List NostrEvent) (reasons : List String) :
    NostrClient.fetch c (evs.map FetchOcc.event ++ [FetchOcc.close reasons]) =
      .ok (some (if hasEose reasons then FetchResult.resolved evs
        else FetchResult.rejected
          ("No relay response: " ++ String.intercalate ", " reasons))) := by
  have hrun : fetchRun (evs.map FetchOcc.event ++ [FetchOcc.close reasons]) =
      fetchStep { events := evs, result := none } (FetchOcc.close reasons) := by
    simp [fetchRun, List.foldl_append, foldl_fetchStep_events]
  by_cases h : hasEose reasons <;>
    simp [NostrClient.fetch, hp, hrun, fetchStep, finish, h]

/-- Witness for `fetch_eose_membership`: a close with the wording
'closed automatically on eose' and zero delivered events resolves with the
empty list. -/
theorem fetch_eose_membership_witness :
    sampleConnected.pool = true ∧
    NostrClient.fetch sampleConnected
        (([] : List NostrEvent).map FetchOcc.event ++
          [FetchOcc.close ["closed automatically on eose"]]) =
      .ok (some (if hasEose ["closed automatically on eose"] then FetchResult.resolved []
        else FetchResult.rejected ("No relay response: " ++
          String.intercalate ", " ["closed automatically on eose"]))) :=
  ⟨rfl, fetch_eose_membership sampleConnected rfl [] ["closed automatically on eose"]⟩

/-- A settled fetch state absorbs every further callback occurrence. -/
theorem fetchStep_settled (s : FetchSt) (o : FetchOcc) (h : s.result.isSome) :
    fetchStep s o = s := by
  cases o <;> simp [fetchStep, finish, h]

/-- A settled fetch state absorbs every further trace. -/
theorem foldl_fetchStep_settled (occs : List FetchOcc) (s : FetchSt)
    (h : s.result.isSome) :
    occs.foldl fetchStep s = s := by
  induction occs with
  | nil => rfl
  | cons o t ih => rw [List.foldl_cons, fetchStep_settled s o h, ih]

/-- C4: fetch resolution is latched — once a prefix of the callback trace has
settled the call (by completion close, failure close or timeout), any
continuation of the trace (late closes, late events, the pending timer)
leaves the delivered result unchanged. -/
theorem fetch_latched (c : ClientState) (hp : c.pool = true)
    (pre post : List FetchOcc) (r : FetchResult)
    (h : (fetchRun pre).result = some r) :
    NostrClient.fetch c (pre ++ post) = .ok (some r) ∧
    NostrClient.fetch c pre = .ok (some r) := by
  have hrun : fetchRun (pre ++ post) = fetchRun pre := by
    rw [fetchRun, List.foldl_append]
    exact foldl_fetchStep_settled post (fetchRun pre) (by simp [h])
  simp [NostrClient.fetch, hp, hrun, h]

/-- Witness for `fetch_latched`: a fetch settled by a completion close is
unaffected by a later failure close, a late event and the timer firing. -/
theorem fetch_latched_witness :
    NostrClient.fetch sampleConnected
        ([FetchOcc.close ["EOSE"]] ++
          [FetchOcc.close ["error"], FetchOcc.event sampleEvent, FetchOcc.timeoutFire]) =
      .ok (some (FetchResult.resolved [])) ∧
    NostrClient.fetch sampleConnected [FetchOcc.close ["EOSE"]] =
      .ok (some (FetchResult.resolved [])) :=
  fetch_latched sampleConnected rfl [FetchOcc.close ["EOSE"]]
    [FetchOcc.close ["error"], FetchOcc.event sampleEvent, FetchOcc.timeoutFire]
    (FetchResult.resolved []) (by decide)

/-- A run of timed `onevent` deliveries keeps the fetch pending and records
no settlement time. -/
theorem foldl_timedStep_events (l : List (Nat × FetchOcc)) (acc : List NostrEvent)
    (h : ∀ q ∈ l, ∃ e, q.2 = FetchOcc.event e) :
    ∃ evs, l.foldl timedStep ({ events := acc, result := none }, none) =
      ({ events := evs, result := none }, none) := by
  induction l generalizing acc with
  | nil => exact ⟨acc, rfl⟩
  | cons q t ih =>
    obtain ⟨e, he⟩ := h q (by simp)
    obtain ⟨evs, hevs⟩ := ih (acc ++ [e]) (fun p hp => h p (by simp [hp]))
    exact ⟨evs, by simpa [timedStep, he, fetchStep] using hevs⟩

/-- A settled timed state (result and settlement time both present) absorbs
every further trace. -/
theorem foldl_timedStep_settled (l : List (Nat × FetchOcc)) (s : FetchSt) (tm : Nat)
    (h : s.result.isSome) :
    l.foldl timedStep (s, some tm) = (s, some tm) := by
  induction l with
  | nil => rfl
  | cons q t ih =>
    rw [List.foldl_cons]
    have hstep : timedStep (s, some tm) q = (s, some tm) := by
      simp [timedStep, fetchStep_settled s q.2 h]
    rw [hstep, ih]

/-- C5: a fetch whose relays never close and never signal completion (the
subscription delivers only events) is settled by the timeout timer alone:
it rejects with the timeout error, the settlement happens exactly when the
timer scheduled at `timeoutMs` fires — not before it and not after it — and
the default timeout is 5000 ms. -/
theorem fetch_timeout_at_deadline (timeoutMs : Nat) (subOccs : List (Nat × FetchOcc))
    (h : ∀ q ∈ subOccs, ∃ e, q.2 = FetchOcc.event e) :
    (fetchTimed timeoutMs subOccs).1.result =
        some (FetchResult.rejected "No relay response: timeout") ∧
    (fetchTimed timeoutMs subOccs).2 = some timeoutMs ∧
    fetchDefTimeout = 5000 := by
  obtain ⟨evs, hpre⟩ := foldl_timedStep_events
    (subOccs.filter (fun q => q.1 < timeoutMs)) []
    (fun q hq => h q (List.mem_of_mem_filter hq))
  have hmid : timedStep ({ events := evs, result := none }, none)
      (timeoutMs, FetchOcc.timeoutFire) =
      ({ events := evs, result := some (FetchResult.rejected "No relay response: timeout") },
        some timeoutMs) := by
    simp [timedStep, fetchStep, finish]
  have hrun : fetchTimed timeoutMs subOccs =
      ({ events := evs, result := some (FetchResult.rejected "No relay response: timeout") },
        some timeoutMs) := by
    rw [fetchTimed, timedMerge]
    rw [show subOccs.filter (fun q => q.1 < timeoutMs) ++ [(timeoutMs, FetchOcc.timeoutFire)] ++
        subOccs.filter (fun q => timeoutMs ≤ q.1) =
      (subOccs.filter (fun q => q.1 < timeoutMs) ++ [(timeoutMs, FetchOcc.timeoutFire)]) ++
        subOccs.filter (fun q => timeoutMs ≤ q.1) from by simp]
    rw [List.foldl_append, List.foldl_append, hpre, List.foldl_cons, List.foldl_nil, hmid]
    exact foldl_timedStep_settled _ _ _ (by simp)
  simp [hrun, fetchDefTimeout]

/-- Witness for `fetch_timeout_at_deadline`: one event at 100 ms and no
close; the call rejects exactly at the default 5000 ms deadline. -/
theorem fetch_timeout_at_deadline_witness :
    (fetchTimed fetchDefTimeout [(100, FetchOcc.event sampleEvent)]).1.result =
        some (FetchResult.rejected "No relay response: timeout") ∧
    (fetchTimed fetchDefTimeout [(100, FetchOcc.event sampleEvent)]).2 =
        some fetchDefTimeout ∧
    fetchDefTimeout = 5000 :=
  fetch_timeout_at_deadline fetchDefTimeout [(100, FetchOcc.event sampleEvent)]
    (by intro q hq
        simp only [List.mem_singleton] at hq
        exact ⟨sampleEvent, by rw [hq]⟩)

/-- When the first attempt succeeds, `withRetry` stops there: one attempt,
no backoff delay. -/
theorem withRetry_first_success (f : Nat → Bool) (o : RetryOptions)
    (hmax : 0 < o.maxAttempts) (h0 : f 0 = true) :
    withRetry f o = .ok 1 [] := by
  obtain ⟨m, hm⟩ : ∃ m, o.maxAttempts = m + 1 :=
    ⟨o.maxAttempts - 1, (Nat.succ_pred_eq_of_pos hmax).symm⟩
  rw [withRetry, hm, List.range_succ_eq_map]
  simp [List.find?, h0]

/-- When every attempt fails, `withRetry` uses the whole attempt budget and
every backoff delay. -/
theorem withRetry_all_fail (f : Nat → Bool) (o : RetryOptions)
    (hall : ∀ i, f i = false) :
    withRetry f o =
      .failed o.maxAttempts ((List.range (o.maxAttempts - 1)).map (backoffDelay o)) := by
  rw [withRetry]
  have hnone : (List.range o.maxAttempts).find? f = none := by
    rw [List.find?_eq_none]
    intro x _
    simp [hall x]
  rw [hnone]

/-- C2: on a connected client, `publish` resolves as soon as any one relay
accepts the signed event — one relay accepting on the first attempt yields
success after a single attempt, consuming no retry and no backoff delay —
and only when every relay rejects on every attempt is the whole attempt
retried, using the full bounded budget with every backoff delay capped at
the configured maximum, before surfacing the failure. -/
theorem publish_any_relay_and_retry (env : CryptoEnv) (c : ClientState) (sk : SecretKey)
    (tmpl : EventTemplate) (accept : Nat → List Bool)
    (hp : c.pool = true) (hs : c.secretKey = some sk)
    (hmax : 0 < c.publishRetry.maxAttempts) :
    ((accept 0).any id = true →
      NostrClient.publish env c tmpl accept =
        { outcome := .published 1 [], signed := some (NostrClient.finalizeEvt env tmpl sk),
          relayAttempts := 1 }) ∧
    ((∀ i, (accept i).any id = false) →
      (NostrClient.publish env c tmpl accept).outcome =
        .publishFailed c.publishRetry.maxAttempts
          ((List.range (c.publishRetry.maxAttempts - 1)).map (backoffDelay c.publishRetry)) ∧
      ∀ d ∈ (List.range (c.publishRetry.maxAttempts - 1)).map (backoffDelay c.publishRetry),
        d ≤ c.publishRetry.maxDelay) := by
  constructor
  · intro h0
    have hr := withRetry_first_success (fun i => (accept i).any id) c.publishRetry hmax h0
    simp [NostrClient.publish, hp, hs, hr]
  · intro hall
    have hr := withRetry_all_fail (fun i => (accept i).any id) c.publishRetry hall
    refine ⟨by simp [NostrClient.publish, hp, hs, hr], ?_⟩
    intro d hd
    obtain ⟨i, _, hi⟩ := List.mem_map.mp hd
    rw [← hi]
    simp only [backoffDelay]
    exact min_le_right _ _

/-- Witness for `publish_any_relay_and_retry`: a pool of three relays of
which exactly the second accepts. -/
theorem publish_any_relay_and_retry_witness :
    (([false, true, false].any id = true →
      NostrClient.publish sampleEnv sampleConnected
          { kind := 25000, tags := [["d", "room"]], content := "x" }
          (fun _ => [false, true, false]) =
        { outcome := .published 1 [],
          signed := some (NostrClient.finalizeEvt sampleEnv
            { kind := 25000, tags := [["d", "room"]], content := "x" } [1, 2, 3]),
          relayAttempts := 1 }) ∧
    ((∀ i, (((fun _ => [false, true, false]) : Nat → List Bool) i).any id = false) →
      (NostrClient.publish sampleEnv sampleConnected
          { kind := 25000, tags := [["d", "room"]], content := "x" }
          (fun _ => [false, true, false])).outcome =
        .publishFailed sampleConnected.publishRetry.maxAttempts
          ((List.range (sampleConnected.publishRetry.maxAttempts - 1)).map
            (backoffDelay sampleConnected.publishRetry)) ∧
      ∀ d ∈ (List.range (sampleConnected.publishRetry.maxAttempts - 1)).map
          (backoffDelay sampleConnected.publishRetry),
        d ≤ sampleConnected.publishRetry.maxDelay)) ∧
    [false, true, false].any id = true :=
  ⟨publish_any_relay_and_retry sampleEnv sampleConnected [1, 2, 3]
      { kind := 25000, tags := [["d", "room"]], content := "x" }
      (fun _ => [false, true, false]) rfl rfl (by decide),
    by decide⟩

/-- C8: `subscribe` on a missing pool or with an empty filter list yields a
non-fatal warning and a no-op unsubscribe whose repeated invocation changes
nothing; on a connected client with at least one filter the live
subscription is opened against the first filter only. -/
theorem subscribe_noop_or_first_filter (c : ClientState) (filters : List NFilter)
    (subMany : SOut Nat) :
    ((c.pool = false ∨ filters = []) →
      (∃ w, NostrClient.subscribe c filters subMany = .warnNoop w) ∧
      ∀ (n : Nat) (world : SubWorld),
        (unsubEffect (NostrClient.subscribe c filters subMany))^[n] world = world) ∧
    (∀ f rest sid, c.pool = true → filters = f :: rest → subMany = .ok sid →
      NostrClient.subscribe c filters subMany = .active f sid) := by
  constructor
  · intro h
    have hw : ∃ w, NostrClient.subscribe c filters subMany = .warnNoop w := by
      rcases h with h | h
      · exact ⟨notConnectedMsg, by simp [NostrClient.subscribe, h]⟩
      · by_cases hp : c.pool = false
        · exact ⟨notConnectedMsg, by simp [NostrClient.subscribe, hp]⟩
        · exact ⟨"[NostrClient] No filters provided",
            by simp [NostrClient.subscribe, hp, h]⟩
    refine ⟨hw, ?_⟩
    obtain ⟨w, hwv⟩ := hw
    intro n world
    rw [hwv]
    induction n with
    | zero => rfl
    | succ m ih => rw [Function.iterate_succ_apply, show unsubEffect (.warnNoop w) world = world from rfl, ih]
  · intro f rest sid hp hf hsub
    simp [NostrClient.subscribe, hp, hf, hsub]

/-- Witness for `subscribe_noop_or_first_filter`: a disconnected client gets
a warning and a no-op unsubscribe (iterated thrice on a sample world), a
connected one a subscription against the first of two filters. -/
theorem subscribe_noop_or_first_filter_witness :
    (∃ w, NostrClient.subscribe (NostrClient.disconnect sampleConnected)
        [NFilter.mk 5] (SOut.ok 7) = .warnNoop w) ∧
    (unsubEffect (NostrClient.subscribe (NostrClient.disconnect sampleConnected)
        [NFilter.mk 5] (SOut.ok 7)))^[3] [1, 2] = [1, 2] ∧
    NostrClient.subscribe sampleConnected [NFilter.mk 5, NFilter.mk 6] (SOut.ok 7) =
      .active (NFilter.mk 5) 7 :=
  ⟨((subscribe_noop_or_first_filter (NostrClient.disconnect sampleConnected)
      [NFilter.mk 5] (SOut.ok 7)).1 (Or.inl rfl)).1,
    ((subscribe_noop_or_first_filter (NostrClient.disconnect sampleConnected)
      [NFilter.mk 5] (SOut.ok 7)).1 (Or.inl rfl)).2 3 [1, 2],
    (subscribe_noop_or_first_filter sampleConnected [NFilter.mk 5, NFilter.mk 6]
      (SOut.ok 7)).2 (NFilter.mk 5) [NFilter.mk 6] 7 rfl rfl rfl⟩

end NostrBattle
